import Mathlib

/-!
# url2img: the render-and-encode pipeline of `loader.go`

A shallow embedding of `NewLoader` (the two signal handlers) and `Loader.LoadPage`
(the session set-up and the load-completion callback) of `src/url2img/loader.go`.

* The Qt engine, the Go image codecs, `strings.ToUpper` and the absent `params.go`
  are collaborators: they are fields of `Collab`, and every theorem holds for every
  choice of them.
* Effects are recorded as a list of `Action`s in program order; `perform` gives the
  two effects that matter to the loader itself (the clock advance of `time.Sleep` and
  the slot connected to the `loadFinished` signal).
* The Qt main loop is `Exec`: it dispatches one event at a time and each handler runs
  to completion before the next event is looked at.
-/

set_option autoImplicit false

namespace Url2img

/-! ## Go standard library pieces that are modelled concretely -/

/-- Go byte slices (`[]byte`). -/
abbrev Bytes := List UInt8

/-- The digit table of Go's `encoding/hex`. -/
def hextable : List Char := "0123456789abcdef".toList

/-- One hex digit, `hextable[n]`. -/
def hexDigit (n : Nat) : Char := hextable.getD n '0'

/-- Go's `hex.EncodeToString`: two lower-case digits per byte, high nibble first. -/
def hexEncodeToString (src : Bytes) : String :=
  String.mk (src.flatMap fun b => [hexDigit (b.toNat / 16), hexDigit (b.toNat % 16)])

/-- Two's-complement wrap of an integer into Go's `int64`. -/
def wrapInt64 (x : Int) : Int := (x + 2 ^ 63) % 2 ^ 64 - 2 ^ 63

/-- Nanoseconds per `time.Millisecond`. -/
def millisecond : Int := 1000000

/-- The argument of the sleep, `time.Duration(delay) * time.Millisecond`, an `int64`
    product. -/
def sleepDuration (delay : Int) : Int := wrapInt64 (delay * millisecond)

/-- Go's `time.Sleep` on a clock counted in nanoseconds: the calling thread resumes
    `d` nanoseconds later at the earliest, and the clock is advanced by exactly that; a
    zero or negative duration returns at once. -/
def timeSleep (d : Int) (clock : Nat) : Nat := if d ≤ 0 then clock else clock + d.toNat

/-! ## Data -/

/-- The carrier types of the external collaborators. -/
structure Types where
  /-- State of one `QWebView` with its page and main frame. -/
  View : Type
  /-- A `QImage`. -/
  QImage : Type
  /-- A decoded Go `image.Image`. -/
  Image : Type
  /-- A `QVariant`. -/
  QVariant : Type
  /-- Go `float64`. -/
  Float64 : Type
  /-- Go `float32`. -/
  Float32 : Type

/-- A `QSize`. -/
structure QSize where
  width : Int
  height : Int
deriving DecidableEq, Repr

/-- The fields of `Params` that `NewLoader` reads (the type is declared outside
    `loader.go`). -/
structure Params (τ : Types) where
  Url : String
  Id : String
  Format : String
  Quality : Int
  Delay : Int
  Width : Int
  Height : Int
  Zoom : τ.Float64
  Full : Bool

/-- The `QImage` pixel format used by the loader. -/
inductive QImageFormat where
  | Format_RGB888
deriving DecidableEq, Repr

/-- The painter render hints used by the loader. -/
inductive RenderHint where
  | Antialiasing
  | TextAntialiasing
  | HighQualityAntialiasing
  | SmoothPixmapTransform
deriving DecidableEq, Repr

/-- The scroll bar orientations. -/
inductive Orientation where
  | Horizontal
  | Vertical
deriving DecidableEq, Repr

/-- The `QWebSettings` attributes that `SetAttributes` touches. -/
inductive WebAttribute where
  | AutoLoadImages
  | JavascriptEnabled
  | JavascriptCanOpenWindows
  | JavascriptCanCloseWindows
  | JavascriptCanAccessClipboard
  | LocalContentCanAccessFileUrls
  | LocalContentCanAccessRemoteUrls
  | SiteSpecificQuirksEnabled
  | PrivateBrowsingEnabled
  | PluginsEnabled
  | JavaEnabled
  | WebGLEnabled
  | WebAudioEnabled
  | NotificationsEnabled
  | Accelerated2dCanvasEnabled
  | AcceleratedCompositingEnabled
  | TiledBackingStoreEnabled
  | LocalStorageEnabled
  | LocalStorageDatabaseEnabled
  | OfflineStorageDatabaseEnabled
  | OfflineWebApplicationCacheEnabled
deriving DecidableEq, Repr

/-- The storage paths that `SetPath` sets. -/
inductive StoragePath where
  | IconDatabase
  | LocalStorage
  | OfflineStorage
  | OfflineWebApplicationCache
deriving DecidableEq, Repr

/-- The external collaborators of `loader.go`. -/
structure Collab (τ : Types) where
  /-- `NewParams()` of the absent `params.go`. -/
  newParams : Params τ
  /-- `p.Unmarshal(data)`: the receiver after the call and the returned error
      (`none` is Go's `nil`). -/
  unmarshal : Params τ → String → Params τ × Option String
  /-- `os.TempDir()`. -/
  tempDir : String
  /-- `strings.ToUpper`. -/
  toUpper : String → String
  /-- `frame.ContentsSize()`. -/
  contentsSize : τ.View → QSize
  /-- `view.Page().SetViewportSize(size)`. -/
  setViewportSize : τ.View → QSize → τ.View
  /-- `view.Resize(size)`. -/
  resize : τ.View → QSize → τ.View
  /-- `frame.EvaluateJavaScript(js)`: the value and the view afterwards. -/
  evaluateJavaScript : τ.View → String → τ.QVariant × τ.View
  /-- `variant.ToInt(ok)`. -/
  toInt : τ.QVariant → Bool → Int
  /-- `gui.NewQImage3(width, height, format)`. -/
  newQImage3 : Int → Int → QImageFormat → τ.QImage
  /-- `frame.Render(painter, region)` with the painter on the image, all four hints
      on and an empty region: the image afterwards. -/
  render : τ.View → τ.QImage → τ.QImage
  /-- `image.Save2(buff, format, quality)` into a freshly opened buffer: the bytes
      that `buff.Data().ConstData()` gives afterwards. -/
  save2 : τ.QImage → String → Int → Bytes
  /-- `png.Decode`. -/
  pngDecode : Bytes → Except String τ.Image
  /-- `png.Encode(w, i)`: the bytes written to `w`. -/
  pngEncode : τ.Image → Bytes
  /-- `jpeg.Encode(w, i, &jpeg.Options{quality})`: the bytes written to `w`. -/
  jpegEncode : τ.Image → Int → Bytes
  /-- `webp.Encode(w, i, &webp.Options{lossless, quality})`: the bytes written. -/
  webpEncode : τ.Image → Bool → τ.Float32 → Bytes
  /-- The conversion `float32(quality)`. -/
  float32 : Int → τ.Float32

/-- The observable steps of the loader, in program order. -/
inductive Action (τ : Types) where
  | newQWebView
  | viewSetDontShowOnScreen
  | resize2 (w h : Int)
  | viewShow
  | setZoomFactor (zoom : τ.Float64)
  | setScrollBarAlwaysOff (o : Orientation)
  | setWebAttribute (a : WebAttribute) (enabled : Bool)
  | setStoragePath (which : StoragePath) (path : String)
  | connectLoadFinished
  | load (url : String)
  | sleep (d : Int)
  | setViewportSize (size : QSize)
  | resize (size : QSize)
  | evaluateJavaScript (js : String)
  | newQPainter
  | newQImage3 (width height : Int) (format : QImageFormat)
  | painterBegin
  | setRenderHint (hint : RenderHint) (enabled : Bool)
  | render
  | painterEnd
  | newQBuffer
  | bufferOpenReadWrite
  | save2 (format : String) (quality : Int)
  | destroyQImage
  | bufferClose
  | bufferDeleteLater
  | pngDecode (data : Bytes)
  | pngEncode
  | jpegEncode (quality : Int)
  | webpEncode (lossless : Bool) (quality : τ.Float32)
  | loadFinished (id data : String)
  | pageDeleteLater
  | viewDeleteLater

/-- Whether an action is a run of one of the three encoders. -/
def Action.isEncoder {τ : Types} : Action τ → Bool
  | .pngEncode => true
  | .jpegEncode _ => true
  | .webpEncode _ _ => true
  | _ => false

/-- Whether an action is an emission of the `loadFinished` signal of the loader. -/
def Action.isPublish {τ : Types} : Action τ → Bool
  | .loadFinished _ _ => true
  | _ => false

/-- Whether an action is the allocation of the output bitmap. -/
def Action.isAlloc {τ : Types} : Action τ → Bool
  | .newQImage3 _ _ _ => true
  | _ => false

/-- Modelled from the spec: the result store `loaded` (declared outside `loader.go`),
    a keyed map from request id to result string in which a later `Set` for an id
    overwrites the earlier value. -/
abbrev Store := List (String × String)

/-- Modelled from the spec: `loaded.Set(id, value)`, last write wins. -/
def Store.Set (s : Store) (id value : String) : Store :=
  (id, value) :: s.filter fun e => e.1 ≠ id

/-- Modelled from the spec: `get(id)`, the value or absent. -/
def Store.Get (s : Store) (id : String) : Option String :=
  (s.find? fun e => e.1 = id).map Prod.snd

/-! ## The load-completion callback of `LoadPage` (loader.go lines 76-128) -/

/-- The variables of `LoadPage` that its load-completion closure captures. -/
structure Session where
  id : String
  format : String
  quality : Int
  delay : Int
  width : Int
  height : Int
  full : Bool
deriving DecidableEq, Repr

/-- Lines 77-79: the post-load delay. -/
def delayStep {τ : Types} (delay : Int) : List (Action τ) :=
  if delay > 0 then [Action.sleep (sleepDuration delay)] else []

/-- Result of the full-page branch: the actions, the view afterwards and the value of
    the variable `height` afterwards. -/
structure Sized (τ : Types) where
  actions : List (Action τ)
  view : τ.View
  height : Int

/-- Lines 81-87: with `full` the viewport and the view are resized to the contents
    size and `height` is reassigned from `document.body.offsetHeight`. -/
def fullStep {τ : Types} (c : Collab τ) (full : Bool) (height : Int) (v : τ.View) : Sized τ :=
  if full then
    let size1 := c.contentsSize v
    let v1 := c.setViewportSize v size1
    let size2 := c.contentsSize v1
    let v2 := c.resize v1 size2
    let r := c.evaluateJavaScript v2 "document.body.offsetHeight"
    { actions := [.setViewportSize size1, .resize size2,
                  .evaluateJavaScript "document.body.offsetHeight"],
      view := r.2,
      height := c.toInt r.1 true }
  else
    { actions := [], view := v, height := height }

/-- Lines 89-98: allocation of the output bitmap and the single paint into it. -/
def captureActions {τ : Types} (width height : Int) : List (Action τ) :=
  [.newQPainter, .newQImage3 width height .Format_RGB888, .painterBegin,
   .setRenderHint .Antialiasing true, .setRenderHint .TextAntialiasing true,
   .setRenderHint .HighQualityAntialiasing true, .setRenderHint .SmoothPixmapTransform true,
   .render, .painterEnd]

/-- Lines 89-98: the painted bitmap. -/
def captureImage {τ : Types} (c : Collab τ) (width height : Int) (v : τ.View) : τ.QImage :=
  c.render v (c.newQImage3 width height .Format_RGB888)

/-- Lines 100-110: the intermediate PNG serialisation, which receives `quality`. -/
def serialiseActions {τ : Types} (quality : Int) : List (Action τ) :=
  [.newQBuffer, .bufferOpenReadWrite, .save2 "PNG" quality, .destroyQImage,
   .bufferClose, .bufferDeleteLater]

/-- Result of the encode step: the actions and the contents of the buffer `w`. -/
structure Encoded (τ : Types) where
  actions : List (Action τ)
  bytes : Bytes

/-- Lines 114-121: the switch on the upper-cased format; there is no default case, so
    any other format leaves the fresh buffer `w` empty. -/
def encodeSwitch {τ : Types} (c : Collab τ) (format : String) (quality : Int) (i : τ.Image) :
    Encoded τ :=
  let u := c.toUpper format
  if u = "PNG" then
    { actions := [.pngEncode], bytes := c.pngEncode i }
  else if u = "JPG" ∨ u = "JPEG" then
    { actions := [.jpegEncode quality], bytes := c.jpegEncode i quality }
  else if u = "WEBP" then
    { actions := [.webpEncode false (c.float32 quality)],
      bytes := c.webpEncode i false (c.float32 quality) }
  else
    { actions := [], bytes := [] }

/-- Lines 106-122: decode the intermediate and, only when `err == nil`, run the
    switch. -/
def encodeStep {τ : Types} (c : Collab τ) (format : String) (quality : Int) (data : Bytes) :
    Encoded τ :=
  match c.pngDecode data with
  | .ok i =>
    let e := encodeSwitch c format quality i
    { actions := Action.pngDecode data :: e.actions, bytes := e.bytes }
  | .error _ => { actions := [Action.pngDecode data], bytes := [] }

/-- Lines 124-127: emit `loadFinished(id, hex)` and release the page and the view. -/
def finishActions {τ : Types} (id : String) (w : Bytes) : List (Action τ) :=
  [.loadFinished id (hexEncodeToString w), .pageDeleteLater, .viewDeleteLater]

/-- What one firing of the callback computes. -/
structure Fired (τ : Types) where
  /-- All actions, in program order. -/
  actions : List (Action τ)
  /-- The view when the callback returns. -/
  view : τ.View
  /-- The arguments `(width, height)` of the bitmap allocation. -/
  dims : Int × Int
  /-- The contents of `w` when it is hex-encoded. -/
  encoded : Bytes
  /-- The arguments of the `loadFinished` emission. -/
  published : String × String

/-- The closure passed to `ConnectLoadFinished` (lines 76-128); its `bool` parameter is
    unnamed in the source and never read. -/
def callback {τ : Types} (c : Collab τ) (s : Session) (_ok : Bool) (v : τ.View) : Fired τ :=
  let sized := fullStep c s.full s.height v
  let image := captureImage c s.width sized.height sized.view
  let data := c.save2 image "PNG" s.quality
  let e := encodeStep c s.format s.quality data
  { actions := delayStep s.delay ++ sized.actions ++ captureActions s.width sized.height
               ++ serialiseActions s.quality ++ e.actions ++ finishActions s.id e.bytes,
    view := sized.view,
    dims := (s.width, sized.height),
    encoded := e.bytes,
    published := (s.id, hexEncodeToString e.bytes) }

/-! ## The loader and the Qt main loop -/

/-- One trace entry: the clock (nanoseconds) at which the action starts. -/
structure Stamped (τ : Types) where
  time : Nat
  act : Action τ

/-- The state of the process. -/
structure World (τ : Types) where
  /-- The global result store `loaded`. -/
  loaded : Store
  /-- The views whose `loadFinished` has not fired yet, with their closures. -/
  sessions : List Session
  /-- The clock of the single thread that runs the Qt main loop, in nanoseconds. -/
  clock : Nat
  /-- Everything done so far. -/
  trace : List (Stamped τ)

/-- The slot connected to the `loadFinished` signal of the loader (lines 55-57). -/
def loadFinishedHandler (id data : String) (loaded : Store) : Store :=
  loaded.Set id data

/-- Effect of one action on the process: it is logged at the current clock; a sleep
    holds the thread for its duration; an emission of `loadFinished` runs the
    connected slot. -/
def perform {τ : Types} (w : World τ) (a : Action τ) : World τ :=
  let w1 : World τ := { w with trace := w.trace ++ [⟨w.clock, a⟩] }
  match a with
  | .sleep d => { w1 with clock := timeSleep d w.clock }
  | .loadFinished id data => { w1 with loaded := loadFinishedHandler id data w1.loaded }
  | _ => w1

/-- A sequence of actions performed in order. -/
def performAll {τ : Types} (w : World τ) (as : List (Action τ)) : World τ :=
  as.foldl perform w

/-- The calls of `SetAttributes` (lines 134-159). -/
def SetAttributes {τ : Types} : List (Action τ) :=
  [.setWebAttribute .AutoLoadImages true, .setWebAttribute .JavascriptEnabled true,
   .setWebAttribute .JavascriptCanOpenWindows false,
   .setWebAttribute .JavascriptCanCloseWindows false,
   .setWebAttribute .JavascriptCanAccessClipboard false,
   .setWebAttribute .LocalContentCanAccessFileUrls true,
   .setWebAttribute .LocalContentCanAccessRemoteUrls true,
   .setWebAttribute .SiteSpecificQuirksEnabled true,
   .setWebAttribute .PrivateBrowsingEnabled true,
   .setWebAttribute .PluginsEnabled false, .setWebAttribute .JavaEnabled false,
   .setWebAttribute .WebGLEnabled false, .setWebAttribute .WebAudioEnabled false,
   .setWebAttribute .NotificationsEnabled false,
   .setWebAttribute .Accelerated2dCanvasEnabled false,
   .setWebAttribute .AcceleratedCompositingEnabled false,
   .setWebAttribute .TiledBackingStoreEnabled false,
   .setWebAttribute .LocalStorageEnabled false,
   .setWebAttribute .LocalStorageDatabaseEnabled false,
   .setWebAttribute .OfflineStorageDatabaseEnabled false,
   .setWebAttribute .OfflineWebApplicationCacheEnabled false]

/-- The calls of `SetPath` (lines 162-167). -/
def SetPath {τ : Types} (path : String) : List (Action τ) :=
  [.setStoragePath .IconDatabase path, .setStoragePath .LocalStorage path,
   .setStoragePath .OfflineStorage path, .setStoragePath .OfflineWebApplicationCache path]

/-- The set-up part of `LoadPage` (lines 64-74 and 130); the initial size is
    `width` by `width`. -/
def setupActions {τ : Types} (c : Collab τ) (url : String) (width : Int) (zoom : τ.Float64) :
    List (Action τ) :=
  [.newQWebView, .viewSetDontShowOnScreen, .resize2 width width, .viewShow,
   .setZoomFactor zoom, .setScrollBarAlwaysOff .Horizontal, .setScrollBarAlwaysOff .Vertical]
  ++ SetAttributes ++ SetPath c.tempDir ++ [.connectLoadFinished, .load url]

/-- The method `Loader.LoadPage` (lines 63-131): it sets the view up, connects the
    closure and starts the navigation; the closure itself runs later, from the loop. -/
def LoadPage {τ : Types} (c : Collab τ) (url id format : String)
    (quality delay width height : Int) (zoom : τ.Float64) (full : Bool) (w : World τ) : World τ :=
  let w1 := performAll w (setupActions c url width zoom)
  { w1 with sessions := w1.sessions ++ [⟨id, format, quality, delay, width, height, full⟩] }

/-- The slot connected to the `load` signal in `NewLoader` (lines 47-53). -/
def loadHandler {τ : Types} (c : Collab τ) (data : String) (w : World τ) : World τ :=
  let r := c.unmarshal c.newParams data
  let p := r.1
  match r.2 with
  | none => LoadPage c p.Url p.Id p.Format p.Quality p.Delay p.Width p.Height p.Zoom p.Full w
  | some _ => w

/-- What the Qt main loop can dispatch to the loader. -/
inductive Event (τ : Types) where
  /-- The `load` signal is emitted with a raw request. -/
  | load (data : String)
  /-- The page of the `n`-th pending view reports load completion, with the engine's
      success flag, the view being in state `v`. -/
  | pageLoadFinished (n : Nat) (ok : Bool) (v : τ.View)

/-- One dispatch of the main loop: the handler runs to completion. After its closure
    has run a view is deleted, so it leaves the pending list. -/
def step {τ : Types} (c : Collab τ) (w : World τ) : Event τ → World τ
  | .load data => loadHandler c data w
  | .pageLoadFinished n ok v =>
    match w.sessions.get? n with
    | none => w
    | some s =>
      let w1 := performAll w (callback c s ok v).actions
      { w1 with sessions := w1.sessions.eraseIdx n }

/-- The main loop (`Exec`): events are dispatched one after the other on one thread. -/
def Exec {τ : Types} (c : Collab τ) (w : World τ) (es : List (Event τ)) : World τ :=
  es.foldl (step c) w

/-- Whether an action is a call of `time.Sleep`. -/
def Action.isSleep {τ : Types} : Action τ → Bool
  | .sleep _ => true
  | _ => false

/-- The height that the callback gives the bitmap of a full-page request: the integer
    value of `document.body.offsetHeight`, evaluated after the viewport and the view
    have been resized to the contents size. -/
def scriptedHeight {τ : Types} (c : Collab τ) (v : τ.View) : Int :=
  let v1 := c.setViewportSize v (c.contentsSize v)
  let v2 := c.resize v1 (c.contentsSize v1)
  c.toInt (c.evaluateJavaScript v2 "document.body.offsetHeight").1 true

/-- The process `w2` is `w` continued: its trace is the trace of `w` followed by
    entries that start no earlier than the clock of `w`, and its clock is no earlier
    either. -/
def After {τ : Types} (w w2 : World τ) : Prop :=
  ∃ later : List (Stamped τ),
    w2.trace = w.trace ++ later ∧ (∀ e ∈ later, w.clock ≤ e.time) ∧ w.clock ≤ w2.clock

/-- Effect of one action on the store alone. -/
def applyPublish {τ : Types} (st : Store) : Action τ → Store
  | .loadFinished id data => loadFinishedHandler id data st
  | _ => st

/-- The times and ids of the `loadFinished` emissions in a trace. -/
def publishTimes {τ : Types} (w : World τ) : List (Nat × String) :=
  w.trace.filterMap fun e =>
    match e.act with
    | .loadFinished id _ => some (e.time, id)
    | _ => none

/-- The upper-cased format is one of the four that the switch knows. -/
def Supported (u : String) : Prop := u = "PNG" ∨ u = "JPG" ∨ u = "JPEG" ∨ u = "WEBP"

/-- The upper-cased format selects the JPEG case of the switch. -/
def IsJpeg (u : String) : Prop := u = "JPG" ∨ u = "JPEG"

instance (u : String) : Decidable (Supported u) := by
  unfold Supported
  infer_instance

instance (u : String) : Decidable (IsJpeg u) := by
  unfold IsJpeg
  infer_instance

/-- The bitmap that the callback paints and serialises. -/
def captured {τ : Types} (c : Collab τ) (s : Session) (v : τ.View) : τ.QImage :=
  captureImage c s.width (fullStep c s.full s.height v).height (fullStep c s.full s.height v).view

/-! ## A small concrete engine, used to evaluate the definitions on inputs -/

/-- A page of the sample engine: its contents size and the `offsetHeight` of its
    body. -/
structure SampleView where
  contents : QSize
  bodyOffsetHeight : Int
deriving DecidableEq, Repr

/-- A bitmap of the sample engine: its size and whether a frame was painted. -/
structure SampleImage where
  width : Int
  height : Int
  painted : Bool
deriving DecidableEq, Repr

/-- The carriers of the sample engine; floats are taken from the integers. -/
abbrev sampleTypes : Types :=
  { View := SampleView, QImage := SampleImage, Image := Int × Int, QVariant := Int,
    Float64 := Int, Float32 := Int }

/-- Upper-casing of the ASCII letters, on which `strings.ToUpper` agrees. -/
def toUpperASCII (s : String) : String := String.mk (s.data.map Char.toUpper)

/-- The low byte of an integer. -/
def lowByte (n : Int) : UInt8 := UInt8.ofNat (n % 256).toNat

/-- The sample PNG writer: a signature, the compression level chosen by the quality,
    and the size; a bitmap without area cannot be saved. -/
def sampleSave (img : SampleImage) (_format : String) (quality : Int) : Bytes :=
  if 0 < img.width ∧ 0 < img.height then
    [137, 80, 78, 71, lowByte ((100 - quality) * 9 / 91), lowByte img.width, lowByte img.height]
  else []

/-- The sample PNG reader: it ignores the compression level. -/
def sampleDecode : Bytes → Except String (Int × Int)
  | [137, 80, 78, 71, _, w, h] => .ok (w.toNat, h.toNat)
  | _ => .error "png: invalid format"

/-- The sample request decoder: a request is the id followed by a colon and the
    format; anything without a colon is rejected. -/
def sampleUnmarshal (p : Params sampleTypes) (data : String) : Params sampleTypes × Option String :=
  match data.data.span (fun ch => ch != ':') with
  | (id, _ :: format) => ({ p with Id := String.mk id, Format := String.mk format }, none)
  | (_, []) => (p, some "unexpected end of input")

/-- The sample collaborators. -/
def sample : Collab sampleTypes where
  newParams := { Url := "", Id := "", Format := "png", Quality := 85, Delay := 0,
                 Width := 1024, Height := 768, Zoom := (1 : Int), Full := false }
  unmarshal := sampleUnmarshal
  tempDir := "/tmp"
  toUpper := toUpperASCII
  contentsSize := fun (v : SampleView) => v.contents
  setViewportSize := fun (v : SampleView) _ => v
  resize := fun (v : SampleView) _ => v
  evaluateJavaScript := fun (v : SampleView) _ => (v.bodyOffsetHeight, v)
  toInt := fun (r : Int) _ => r
  newQImage3 := fun w h _ => ({ width := w, height := h, painted := false } : SampleImage)
  render := fun _ (img : SampleImage) => ({ img with painted := true } : SampleImage)
  save2 := sampleSave
  pngDecode := sampleDecode
  pngEncode := fun (i : Int × Int) => [1, lowByte i.1, lowByte i.2]
  jpegEncode := fun (i : Int × Int) q => [2, lowByte i.1, lowByte i.2, lowByte q]
  webpEncode := fun (i : Int × Int) _ (q : Int) => [3, lowByte i.1, lowByte i.2, lowByte q]
  float32 := fun q => q

/-- A page whose contents are 16 pixels taller than its body (the default margins). -/
def samplePage : SampleView := { contents := ⟨800, 1016⟩, bodyOffsetHeight := 1000 }

/-- A session of the sample engine. -/
def sampleSession (id format : String) (delay : Int) (full : Bool) : Session :=
  { id := id, format := format, quality := 85, delay := delay, width := 800, height := 600,
    full := full }

/-- A process with two pending views: the first has a delay of 200 ms, the second
    none. -/
def twoPending : World sampleTypes :=
  { loaded := [], clock := 0, trace := [],
    sessions := [sampleSession "a" "png" 200 false, sampleSession "b" "png" 0 false] }

/-- A page without any content. -/
def emptyPage : SampleView := { contents := ⟨800, 0⟩, bodyOffsetHeight := 0 }

/-- A process with one pending view. -/
def onePending (s : Session) : World sampleTypes :=
  { loaded := [], clock := 0, trace := [], sessions := [s] }

/-- A process with nothing pending and one stored result. -/
def idle : World sampleTypes :=
  { loaded := [("old", "00")], clock := 0, trace := [], sessions := [] }

/-! ## Lemmas on the pieces of the callback -/

theorem delayStep_filter_publish {τ : Types} (delay : Int) :
    (delayStep delay : List (Action τ)).filter Action.isPublish = [] := by
  unfold delayStep
  split <;> simp [Action.isPublish]

theorem delayStep_filter_encoder {τ : Types} (delay : Int) :
    (delayStep delay : List (Action τ)).filter Action.isEncoder = [] := by
  unfold delayStep
  split <;> simp [Action.isEncoder]

theorem delayStep_filter_alloc {τ : Types} (delay : Int) :
    (delayStep delay : List (Action τ)).filter Action.isAlloc = [] := by
  unfold delayStep
  split <;> simp [Action.isAlloc]

theorem fullStep_filter_publish {τ : Types} (c : Collab τ) (full : Bool) (height : Int)
    (v : τ.View) : (fullStep c full height v).actions.filter Action.isPublish = [] := by
  unfold fullStep
  split <;> simp [Action.isPublish]

theorem fullStep_filter_encoder {τ : Types} (c : Collab τ) (full : Bool) (height : Int)
    (v : τ.View) : (fullStep c full height v).actions.filter Action.isEncoder = [] := by
  unfold fullStep
  split <;> simp [Action.isEncoder]

theorem fullStep_filter_alloc {τ : Types} (c : Collab τ) (full : Bool) (height : Int)
    (v : τ.View) : (fullStep c full height v).actions.filter Action.isAlloc = [] := by
  unfold fullStep
  split <;> simp [Action.isAlloc]

theorem encodeSwitch_filter_publish {τ : Types} (c : Collab τ) (format : String) (quality : Int)
    (i : τ.Image) : (encodeSwitch c format quality i).actions.filter Action.isPublish = [] := by
  unfold encodeSwitch
  simp only []
  split_ifs <;> simp [Action.isPublish]

theorem encodeSwitch_filter_alloc {τ : Types} (c : Collab τ) (format : String) (quality : Int)
    (i : τ.Image) : (encodeSwitch c format quality i).actions.filter Action.isAlloc = [] := by
  unfold encodeSwitch
  simp only []
  split_ifs <;> simp [Action.isAlloc]

theorem encodeStep_filter_publish {τ : Types} (c : Collab τ) (format : String) (quality : Int)
    (data : Bytes) : (encodeStep c format quality data).actions.filter Action.isPublish = [] := by
  unfold encodeStep
  split
  · simp [Action.isPublish, encodeSwitch_filter_publish]
  · simp [Action.isPublish]

theorem encodeStep_filter_alloc {τ : Types} (c : Collab τ) (format : String) (quality : Int)
    (data : Bytes) : (encodeStep c format quality data).actions.filter Action.isAlloc = [] := by
  unfold encodeStep
  split
  · simp [Action.isAlloc, encodeSwitch_filter_alloc]
  · simp [Action.isAlloc]

theorem encodeSwitch_unsupported {τ : Types} (c : Collab τ) (format : String) (quality : Int)
    (i : τ.Image) (h : ¬ Supported (c.toUpper format)) :
    encodeSwitch c format quality i = { actions := [], bytes := [] } := by
  unfold Supported at h
  push_neg at h
  obtain ⟨h1, h2, h3, h4⟩ := h
  simp [encodeSwitch, h1, h2, h3, h4]

theorem callback_filter_publish {τ : Types} (c : Collab τ) (s : Session) (ok : Bool) (v : τ.View) :
    (callback c s ok v).actions.filter Action.isPublish
      = [Action.loadFinished s.id (hexEncodeToString (callback c s ok v).encoded)] := by
  simp [callback, List.filter_append, delayStep_filter_publish, fullStep_filter_publish,
    encodeStep_filter_publish, captureActions, serialiseActions, finishActions, Action.isPublish]

/-! ## Lemmas on the effect of actions on the process -/

theorem perform_loaded {τ : Types} (w : World τ) (a : Action τ) :
    (perform w a).loaded = applyPublish w.loaded a := by
  cases a <;> rfl

theorem perform_sessions {τ : Types} (w : World τ) (a : Action τ) :
    (perform w a).sessions = w.sessions := by
  cases a <;> rfl

theorem performAll_loaded {τ : Types} (as : List (Action τ)) (w : World τ) :
    (performAll w as).loaded = as.foldl applyPublish w.loaded := by
  induction as generalizing w with
  | nil => rfl
  | cons a as ih =>
    show (performAll (perform w a) as).loaded = _
    rw [ih, perform_loaded]
    rfl

theorem performAll_sessions {τ : Types} (as : List (Action τ)) (w : World τ) :
    (performAll w as).sessions = w.sessions := by
  induction as generalizing w with
  | nil => rfl
  | cons a as ih =>
    show (performAll (perform w a) as).sessions = _
    rw [ih, perform_sessions]

theorem foldl_applyPublish_filter {τ : Types} (as : List (Action τ)) (st : Store) :
    as.foldl applyPublish st = (as.filter Action.isPublish).foldl applyPublish st := by
  induction as generalizing st with
  | nil => rfl
  | cons a as ih =>
    cases a <;> simp [List.filter, Action.isPublish, applyPublish, ih]

theorem step_fire_loaded {τ : Types} (c : Collab τ) (w : World τ) (n : Nat) (s : Session)
    (ok : Bool) (v : τ.View) (h : w.sessions.get? n = some s) :
    (step c w (.pageLoadFinished n ok v)).loaded
      = w.loaded.Set s.id (hexEncodeToString (callback c s ok v).encoded) := by
  simp only [step, h]
  rw [performAll_loaded, foldl_applyPublish_filter, callback_filter_publish]
  rfl

theorem step_fire_sessions {τ : Types} (c : Collab τ) (w : World τ) (n : Nat) (s : Session)
    (ok : Bool) (v : τ.View) (h : w.sessions.get? n = some s) :
    (step c w (.pageLoadFinished n ok v)).sessions = w.sessions.eraseIdx n := by
  simp only [step, h]
  rw [performAll_sessions]

theorem Store.Get_Set (st : Store) (id value : String) : (st.Set id value).Get id = some value := by
  simp [Store.Set, Store.Get]

/-! ## The claims -/

/-- C8: the callback does not read the success flag of the load-completion event: for
    every session and every engine state its actions, the bitmap size, the encoded
    bytes and the published pair are the same for `true` and for `false`, and so is
    the process after the dispatch. -/
theorem C8_success_flag_ignored {τ : Types} (c : Collab τ) (s : Session) (v : τ.View)
    (w : World τ) (n : Nat) :
    callback c s true v = callback c s false v
    ∧ step c w (.pageLoadFinished n true v) = step c w (.pageLoadFinished n false v) := by
  constructor
  · rfl
  · rfl

theorem encodeStep_unsupported {τ : Types} (c : Collab τ) (format : String) (quality : Int)
    (data : Bytes) (h : ¬ Supported (c.toUpper format)) :
    (encodeStep c format quality data).bytes = []
    ∧ (encodeStep c format quality data).actions = [Action.pngDecode data] := by
  unfold encodeStep
  split
  · simp [encodeSwitch_unsupported c format quality _ h]
  · simp

theorem callback_encoded {τ : Types} (c : Collab τ) (s : Session) (ok : Bool) (v : τ.View) :
    (callback c s ok v).encoded
      = (encodeStep c s.format s.quality (c.save2 (captured c s v) "PNG" s.quality)).bytes := rfl

theorem callback_filter_encoder {τ : Types} (c : Collab τ) (s : Session) (ok : Bool) (v : τ.View) :
    (callback c s ok v).actions.filter Action.isEncoder
      = (encodeStep c s.format s.quality
          (c.save2 (captured c s v) "PNG" s.quality)).actions.filter Action.isEncoder := by
  simp [callback, captured, List.filter_append, delayStep_filter_encoder, fullStep_filter_encoder,
    captureActions, serialiseActions, finishActions, Action.isEncoder]

theorem callback_published {τ : Types} (c : Collab τ) (s : Session) (ok : Bool) (v : τ.View) :
    (callback c s ok v).published = (s.id, hexEncodeToString (callback c s ok v).encoded) := rfl

/-- C1: when the upper-cased format is none of PNG, JPG, JPEG, WEBP, one firing of the
    callback runs no encoder, the encoded bytes have length zero, and the empty string
    is still published under the request id: it is the one `loadFinished` emission
    and the store holds it afterwards. -/
theorem C1_unsupported_format_publishes_empty {τ : Types} (c : Collab τ) (s : Session)
    (ok : Bool) (v : τ.View) (w : World τ) (n : Nat)
    (hfmt : ¬ Supported (c.toUpper s.format)) (hn : w.sessions.get? n = some s) :
    (callback c s ok v).actions.filter Action.isEncoder = []
    ∧ (callback c s ok v).encoded.length = 0
    ∧ (callback c s ok v).published = (s.id, "")
    ∧ (callback c s ok v).actions.filter Action.isPublish = [Action.loadFinished s.id ""]
    ∧ (step c w (.pageLoadFinished n ok v)).loaded.Get s.id = some "" := by
  have hb := (encodeStep_unsupported c s.format s.quality
    (c.save2 (captured c s v) "PNG" s.quality) hfmt)
  have he : (callback c s ok v).encoded = [] := by rw [callback_encoded]; exact hb.1
  refine ⟨?_, ?_, ?_, ?_, ?_⟩
  · rw [callback_filter_encoder, hb.2]
    simp [Action.isEncoder]
  · rw [he]; rfl
  · rw [callback_published, he]; rfl
  · rw [callback_filter_publish, he]; rfl
  · rw [step_fire_loaded c w n s ok v hn, he, Store.Get_Set]; rfl

/-- C1 at a concrete input: format "gif" on the sample engine. -/
theorem C1_unsupported_format_publishes_empty_witness :
    ¬ Supported (sample.toUpper (sampleSession "r1" "gif" 0 false).format)
    ∧ (onePending (sampleSession "r1" "gif" 0 false)).sessions.get? 0
        = some (sampleSession "r1" "gif" 0 false)
    ∧ (callback sample (sampleSession "r1" "gif" 0 false) true samplePage).encoded.length = 0
    ∧ (step sample (onePending (sampleSession "r1" "gif" 0 false))
        (.pageLoadFinished 0 true samplePage)).loaded.Get "r1" = some "" :=
  ⟨by decide, by decide,
   (C1_unsupported_format_publishes_empty sample (sampleSession "r1" "gif" 0 false) true
      samplePage (onePending (sampleSession "r1" "gif" 0 false)) 0 (by decide) (by decide)).2.1,
   (C1_unsupported_format_publishes_empty sample (sampleSession "r1" "gif" 0 false) true
      samplePage (onePending (sampleSession "r1" "gif" 0 false)) 0 (by decide) (by decide)).2.2.2.2⟩

/-- C9: on every path one firing of the callback emits `loadFinished` exactly once,
    with the id of the request and the hex encoding of the encoded bytes; the emission
    is followed by the release of the page and of the view, which end the callback;
    the store then holds that value under that id and the view is no longer pending. -/
theorem C9_publishes_once_then_releases {τ : Types} (c : Collab τ) (s : Session)
    (ok : Bool) (v : τ.View) (w : World τ) (n : Nat) (hn : w.sessions.get? n = some s) :
    (callback c s ok v).actions.filter Action.isPublish
        = [Action.loadFinished s.id (hexEncodeToString (callback c s ok v).encoded)]
    ∧ (∃ before : List (Action τ),
        (callback c s ok v).actions
          = before ++ [Action.loadFinished s.id (hexEncodeToString (callback c s ok v).encoded),
                       Action.pageDeleteLater, Action.viewDeleteLater]
        ∧ before.filter Action.isPublish = [])
    ∧ (step c w (.pageLoadFinished n ok v)).loaded
        = w.loaded.Set s.id (hexEncodeToString (callback c s ok v).encoded)
    ∧ (step c w (.pageLoadFinished n ok v)).loaded.Get s.id
        = some (hexEncodeToString (callback c s ok v).encoded)
    ∧ (step c w (.pageLoadFinished n ok v)).sessions = w.sessions.eraseIdx n := by
  refine ⟨callback_filter_publish c s ok v, ?_, step_fire_loaded c w n s ok v hn, ?_,
    step_fire_sessions c w n s ok v hn⟩
  · refine ⟨delayStep s.delay ++ (fullStep c s.full s.height v).actions
      ++ captureActions s.width (fullStep c s.full s.height v).height
      ++ serialiseActions s.quality
      ++ (encodeStep c s.format s.quality (c.save2 (captured c s v) "PNG" s.quality)).actions,
      rfl, ?_⟩
    simp [List.filter_append, delayStep_filter_publish, fullStep_filter_publish,
      encodeStep_filter_publish, captureActions, serialiseActions, Action.isPublish]
  · rw [step_fire_loaded c w n s ok v hn, Store.Get_Set]

/-- C9 at a concrete input: a full-page JPEG request with a delay on the sample
    engine. -/
theorem C9_publishes_once_then_releases_witness :
    (onePending (sampleSession "r9" "jpeg" 5 true)).sessions.get? 0
        = some (sampleSession "r9" "jpeg" 5 true)
    ∧ (step sample (onePending (sampleSession "r9" "jpeg" 5 true))
        (.pageLoadFinished 0 false samplePage)).loaded = [("r9", "0220e855")] :=
  ⟨by decide,
   (C9_publishes_once_then_releases sample (sampleSession "r9" "jpeg" 5 true) false samplePage
      (onePending (sampleSession "r9" "jpeg" 5 true)) 0 (by decide)).2.2.1⟩

theorem encodeStep_decode_error {τ : Types} (c : Collab τ) (format : String) (quality : Int)
    (data : Bytes) (e : String) (h : c.pngDecode data = .error e) :
    encodeStep c format quality data = { actions := [Action.pngDecode data], bytes := [] } := by
  unfold encodeStep
  rw [h]

theorem callback_eq_of_encodeStep_eq {τ : Types} (c : Collab τ) (s : Session) (f : String)
    (ok : Bool) (v : τ.View)
    (h : encodeStep c f s.quality (c.save2 (captured c s v) "PNG" s.quality)
       = encodeStep c s.format s.quality (c.save2 (captured c s v) "PNG" s.quality)) :
    callback c { s with format := f } ok v = callback c s ok v := by
  simp only [callback, captured] at h ⊢
  rw [h]

/-- C10: when `png.Decode` of the intermediate serialisation of the captured bitmap
    returns an error, then whatever the format (the four supported ones included) no
    encoder runs and the empty string is published under the request id; the whole
    outcome is the same for every format, and the published value equals the one of
    any unsupported-format request. -/
theorem C10_decode_failure_publishes_empty {τ : Types} (c : Collab τ) (s : Session)
    (ok : Bool) (v : τ.View) (w : World τ) (n : Nat) (e : String)
    (hdec : c.pngDecode (c.save2 (captured c s v) "PNG" s.quality) = .error e)
    (hn : w.sessions.get? n = some s) :
    (callback c s ok v).actions.filter Action.isEncoder = []
    ∧ (callback c s ok v).published = (s.id, "")
    ∧ (step c w (.pageLoadFinished n ok v)).loaded.Get s.id = some ""
    ∧ (∀ f : String, callback c { s with format := f } ok v = callback c s ok v)
    ∧ (∀ (s2 : Session) (ok2 : Bool) (v2 : τ.View), ¬ Supported (c.toUpper s2.format) →
        (callback c s2 ok2 v2).published.2 = (callback c s ok v).published.2) := by
  have hstep : ∀ f : String,
      encodeStep c f s.quality (c.save2 (captured c s v) "PNG" s.quality)
        = { actions := [Action.pngDecode (c.save2 (captured c s v) "PNG" s.quality)],
            bytes := [] } :=
    fun f => encodeStep_decode_error c f s.quality _ e hdec
  have he : (callback c s ok v).encoded = [] := by rw [callback_encoded, hstep]
  have hp : (callback c s ok v).published = (s.id, "") := by
    rw [callback_published, he]; rfl
  refine ⟨?_, hp, ?_, ?_, ?_⟩
  · rw [callback_filter_encoder, hstep]
    simp [Action.isEncoder]
  · rw [step_fire_loaded c w n s ok v hn, he, Store.Get_Set]; rfl
  · intro f
    exact callback_eq_of_encodeStep_eq c s f ok v (by rw [hstep f, hstep s.format])
  · intro s2 ok2 v2 h2
    have h := encodeStep_unsupported c s2.format s2.quality
      (c.save2 (captured c s2 v2) "PNG" s2.quality) h2
    rw [hp, callback_published, callback_encoded, h.1]
    rfl

/-- C10 at a concrete input: a full-page PNG request for a page without content, whose
    bitmap has no area and cannot be saved. -/
theorem C10_decode_failure_publishes_empty_witness :
    sample.pngDecode (sample.save2 (captured sample (sampleSession "r10" "png" 0 true) emptyPage)
        "PNG" (sampleSession "r10" "png" 0 true).quality) = .error "png: invalid format"
    ∧ (onePending (sampleSession "r10" "png" 0 true)).sessions.get? 0
        = some (sampleSession "r10" "png" 0 true)
    ∧ (callback sample (sampleSession "r10" "png" 0 true) true emptyPage).published = ("r10", "") :=
  ⟨rfl, by decide,
   (C10_decode_failure_publishes_empty sample (sampleSession "r10" "png" 0 true) true emptyPage
      (onePending (sampleSession "r10" "png" 0 true)) 0 "png: invalid format"
      rfl (by decide)).2.1⟩

theorem encodeSwitch_congr_upper {τ : Types} (c : Collab τ) (f1 f2 : String) (quality : Int)
    (i : τ.Image) (h : c.toUpper f1 = c.toUpper f2) :
    encodeSwitch c f1 quality i = encodeSwitch c f2 quality i := by
  simp only [encodeSwitch, h]

theorem encodeSwitch_jpeg {τ : Types} (c : Collab τ) (f : String) (quality : Int)
    (i : τ.Image) (h : IsJpeg (c.toUpper f)) :
    encodeSwitch c f quality i
      = { actions := [Action.jpegEncode quality], bytes := c.jpegEncode i quality } := by
  unfold IsJpeg at h
  rcases h with h | h <;> simp [encodeSwitch, h]

theorem encodeStep_congr_switch {τ : Types} (c : Collab τ) (f1 f2 : String) (quality : Int)
    (data : Bytes)
    (h : ∀ i : τ.Image, encodeSwitch c f1 quality i = encodeSwitch c f2 quality i) :
    encodeStep c f1 quality data = encodeStep c f2 quality data := by
  unfold encodeStep
  split
  · simp only [h]
  · rfl

theorem callback_congr_format {τ : Types} (c : Collab τ) (s : Session) (f1 f2 : String)
    (ok : Bool) (v : τ.View)
    (h : ∀ i : τ.Image, encodeSwitch c f1 s.quality i = encodeSwitch c f2 s.quality i) :
    callback c { s with format := f1 } ok v = callback c { s with format := f2 } ok v := by
  have h2 := encodeStep_congr_switch c f1 f2 s.quality
    (c.save2 (captured c s v) "PNG" s.quality) h
  simp only [callback, captured] at h2 ⊢
  rw [h2]

theorem encodeSwitch_webp {τ : Types} (c : Collab τ) (f : String) (quality : Int)
    (i : τ.Image) (h : c.toUpper f = "WEBP") :
    encodeSwitch c f quality i
      = { actions := [Action.webpEncode false (c.float32 quality)],
          bytes := c.webpEncode i false (c.float32 quality) } := by
  simp [encodeSwitch, h]

theorem encodeSwitch_png_case {τ : Types} (c : Collab τ) (f : String) (quality : Int)
    (i : τ.Image) (h : c.toUpper f = "PNG") :
    encodeSwitch c f quality i = { actions := [Action.pngEncode], bytes := c.pngEncode i } := by
  simp [encodeSwitch, h]

theorem encodeSwitch_actions_filter_encoder {τ : Types} (c : Collab τ) (f : String)
    (quality : Int) (i : τ.Image) :
    (encodeSwitch c f quality i).actions.filter Action.isEncoder
      = (encodeSwitch c f quality i).actions := by
  unfold encodeSwitch
  simp only []
  split_ifs <;> simp [Action.isEncoder]

theorem encodeStep_of_decode_ok {τ : Types} (c : Collab τ) (f : String) (quality : Int)
    (data : Bytes) (i : τ.Image) (h : c.pngDecode data = .ok i) :
    encodeStep c f quality data
      = { actions := Action.pngDecode data :: (encodeSwitch c f quality i).actions,
          bytes := (encodeSwitch c f quality i).bytes } := by
  unfold encodeStep
  rw [h]

theorem callback_of_decode_ok {τ : Types} (c : Collab τ) (s : Session) (ok : Bool) (v : τ.View)
    (i : τ.Image) (h : c.pngDecode (c.save2 (captured c s v) "PNG" s.quality) = .ok i) :
    (callback c s ok v).actions.filter Action.isEncoder
        = (encodeSwitch c s.format s.quality i).actions
    ∧ (callback c s ok v).encoded = (encodeSwitch c s.format s.quality i).bytes := by
  constructor
  · rw [callback_filter_encoder, encodeStep_of_decode_ok c s.format s.quality _ i h]
    simp [Action.isEncoder, encodeSwitch_actions_filter_encoder]
  · rw [callback_encoded, encodeStep_of_decode_ok c s.format s.quality _ i h]

/-- C3: the format is matched after upper-casing only. Take two requests that differ
    in the format alone, the two formats being equal after upper-casing or each
    upper-casing to JPG or to JPEG. Then the two firings of the callback have the same
    outcome (same actions, same encoded bytes, same published value). Whenever the
    intermediate decodes to an image `i`, the encoder actions and the encoded bytes
    of both firings are those of the switch at the upper-cased format, run on `i` with
    the quality of the request: `png.Encode` of `i` for PNG, `jpeg.Encode` of `i` with
    that quality for JPG and for JPEG alike, `webp.Encode` of `i`, lossy, with that
    quality for WEBP. -/
theorem C3_format_case_insensitive {τ : Types} (c : Collab τ) (s : Session) (f1 f2 : String)
    (ok : Bool) (v : τ.View)
    (h : c.toUpper f1 = c.toUpper f2 ∨ (IsJpeg (c.toUpper f1) ∧ IsJpeg (c.toUpper f2))) :
    callback c { s with format := f1 } ok v = callback c { s with format := f2 } ok v
    ∧ (IsJpeg (c.toUpper f1) → ∀ i : τ.Image,
        encodeSwitch c f1 s.quality i
          = { actions := [Action.jpegEncode s.quality], bytes := c.jpegEncode i s.quality }
        ∧ encodeSwitch c f2 s.quality i
          = { actions := [Action.jpegEncode s.quality], bytes := c.jpegEncode i s.quality })
    ∧ (∀ i : τ.Image, c.pngDecode (c.save2 (captured c s v) "PNG" s.quality) = .ok i →
        ((callback c { s with format := f1 } ok v).actions.filter Action.isEncoder
            = (encodeSwitch c f1 s.quality i).actions
          ∧ (callback c { s with format := f1 } ok v).encoded
            = (encodeSwitch c f1 s.quality i).bytes
          ∧ (callback c { s with format := f2 } ok v).actions.filter Action.isEncoder
            = (encodeSwitch c f1 s.quality i).actions
          ∧ (callback c { s with format := f2 } ok v).encoded
            = (encodeSwitch c f1 s.quality i).bytes)
        ∧ (IsJpeg (c.toUpper f1) →
            (callback c { s with format := f1 } ok v).actions.filter Action.isEncoder
              = [Action.jpegEncode s.quality]
            ∧ (callback c { s with format := f1 } ok v).encoded = c.jpegEncode i s.quality
            ∧ (callback c { s with format := f2 } ok v).actions.filter Action.isEncoder
              = [Action.jpegEncode s.quality]
            ∧ (callback c { s with format := f2 } ok v).encoded = c.jpegEncode i s.quality)
        ∧ (c.toUpper f1 = "PNG" →
            (callback c { s with format := f1 } ok v).actions.filter Action.isEncoder
              = [Action.pngEncode]
            ∧ (callback c { s with format := f1 } ok v).encoded = c.pngEncode i
            ∧ (callback c { s with format := f2 } ok v).actions.filter Action.isEncoder
              = [Action.pngEncode]
            ∧ (callback c { s with format := f2 } ok v).encoded = c.pngEncode i)
        ∧ (c.toUpper f1 = "WEBP" →
            (callback c { s with format := f1 } ok v).actions.filter Action.isEncoder
              = [Action.webpEncode false (c.float32 s.quality)]
            ∧ (callback c { s with format := f1 } ok v).encoded
              = c.webpEncode i false (c.float32 s.quality)
            ∧ (callback c { s with format := f2 } ok v).actions.filter Action.isEncoder
              = [Action.webpEncode false (c.float32 s.quality)]
            ∧ (callback c { s with format := f2 } ok v).encoded
              = c.webpEncode i false (c.float32 s.quality))) := by
  have hj : IsJpeg (c.toUpper f1) → IsJpeg (c.toUpper f2) := by
    intro h1
    rcases h with h | h
    · rw [← h]; exact h1
    · exact h.2
  have heq : callback c { s with format := f1 } ok v = callback c { s with format := f2 } ok v := by
    apply callback_congr_format
    intro i
    rcases h with h | h
    · exact encodeSwitch_congr_upper c f1 f2 s.quality i h
    · rw [encodeSwitch_jpeg c f1 s.quality i h.1, encodeSwitch_jpeg c f2 s.quality i h.2]
  refine ⟨heq, ?_, ?_⟩
  · intro h1 i
    exact ⟨encodeSwitch_jpeg c f1 s.quality i h1, encodeSwitch_jpeg c f2 s.quality i (hj h1)⟩
  · intro i hdec
    have h1 := callback_of_decode_ok c { s with format := f1 } ok v i hdec
    have ha : (callback c { s with format := f1 } ok v).actions.filter Action.isEncoder
        = (encodeSwitch c f1 s.quality i).actions := h1.1
    have hb : (callback c { s with format := f1 } ok v).encoded
        = (encodeSwitch c f1 s.quality i).bytes := h1.2
    have ha2 : (callback c { s with format := f2 } ok v).actions.filter Action.isEncoder
        = (encodeSwitch c f1 s.quality i).actions := by rw [← heq]; exact ha
    have hb2 : (callback c { s with format := f2 } ok v).encoded
        = (encodeSwitch c f1 s.quality i).bytes := by rw [← heq]; exact hb
    refine ⟨⟨ha, hb, ha2, hb2⟩, ?_, ?_, ?_⟩
    · intro hjpeg
      have hsw := encodeSwitch_jpeg c f1 s.quality i hjpeg
      rw [hsw] at ha hb ha2 hb2
      exact ⟨ha, hb, ha2, hb2⟩
    · intro hpng
      have hsw := encodeSwitch_png_case c f1 s.quality i hpng
      rw [hsw] at ha hb ha2 hb2
      exact ⟨ha, hb, ha2, hb2⟩
    · intro hwebp
      have hsw := encodeSwitch_webp c f1 s.quality i hwebp
      rw [hsw] at ha hb ha2 hb2
      exact ⟨ha, hb, ha2, hb2⟩

/-- C3 at concrete inputs: "jPg" against "JPEG" on the sample engine, whose
    intermediate decodes to the image (32, 88); both firings give the bytes of the JPEG
    encoder at quality 85. -/
theorem C3_format_case_insensitive_witness :
    (sample.toUpper "jPg" = sample.toUpper "JPEG"
      ∨ (IsJpeg (sample.toUpper "jPg") ∧ IsJpeg (sample.toUpper "JPEG")))
    ∧ IsJpeg (sample.toUpper "jPg")
    ∧ sample.pngDecode (sample.save2 (captured sample (sampleSession "r3" "" 0 false) samplePage)
        "PNG" (sampleSession "r3" "" 0 false).quality) = .ok (32, 88)
    ∧ (callback sample { sampleSession "r3" "" 0 false with format := "jPg" } true
        samplePage).encoded = [2, 32, 88, 85]
    ∧ (callback sample { sampleSession "r3" "" 0 false with format := "JPEG" } true
        samplePage).encoded = [2, 32, 88, 85] :=
  ⟨by decide, by decide, rfl,
   ((C3_format_case_insensitive sample (sampleSession "r3" "" 0 false) "jPg" "JPEG" true
      samplePage (by decide)).2.2 (32, 88) rfl).2.1 (by decide) |>.2.1,
   ((C3_format_case_insensitive sample (sampleSession "r3" "" 0 false) "jPg" "JPEG" true
      samplePage (by decide)).2.2 (32, 88) rfl).2.1 (by decide) |>.2.2.2⟩

theorem callback_filter_alloc {τ : Types} (c : Collab τ) (s : Session) (ok : Bool) (v : τ.View) :
    (callback c s ok v).actions.filter Action.isAlloc
      = [Action.newQImage3 s.width (fullStep c s.full s.height v).height .Format_RGB888] := by
  simp [callback, List.filter_append, delayStep_filter_alloc, fullStep_filter_alloc,
    encodeStep_filter_alloc, captureActions, serialiseActions, finishActions, Action.isAlloc]

theorem LoadPage_sessions {τ : Types} (c : Collab τ) (url id format : String)
    (quality delay width height : Int) (zoom : τ.Float64) (full : Bool) (w : World τ) :
    (LoadPage c url id format quality delay width height zoom full w).sessions
      = w.sessions ++ [⟨id, format, quality, delay, width, height, full⟩] := by
  simp only [LoadPage]
  rw [performAll_sessions]

/-- C5: for every request with `full = false` (valid or not), whatever the url, id,
    format, quality, delay, zoom, the engine state and the success flag: `LoadPage`
    sizes the view `width` by `width` and leaves a pending view whose callback
    allocates exactly one bitmap, with the requested `(width, height)`, and paints and
    serialises that bitmap. -/
theorem C5_viewport_capture_has_requested_size {τ : Types} (c : Collab τ)
    (url id format : String) (quality delay width height : Int) (zoom : τ.Float64)
    (w : World τ) (ok : Bool) (v : τ.View) :
    (LoadPage c url id format quality delay width height zoom false w).sessions.get?
        w.sessions.length = some ⟨id, format, quality, delay, width, height, false⟩
    ∧ Action.resize2 width width ∈ setupActions c url width zoom
    ∧ (callback c ⟨id, format, quality, delay, width, height, false⟩ ok v).dims = (width, height)
    ∧ (callback c ⟨id, format, quality, delay, width, height, false⟩ ok v).actions.filter
        Action.isAlloc = [Action.newQImage3 width height .Format_RGB888]
    ∧ captured c ⟨id, format, quality, delay, width, height, false⟩ v
        = c.render v (c.newQImage3 width height .Format_RGB888) := by
  refine ⟨?_, ?_, rfl, ?_, rfl⟩
  · rw [LoadPage_sessions]
    simp
  · simp [setupActions]
  · rw [callback_filter_alloc]
    rfl

/-- C6 as stated fails: on the sample page, whose contents are 1016 high and whose body
    is 1000 high, a full-page request gets a bitmap 1000 high, not 1016. -/
theorem C6_counterexample :
    (sampleSession "r6" "png" 0 true).full = true
    ∧ (sample.contentsSize samplePage).height = 1016
    ∧ (fullStep sample true 600 samplePage).actions.head?
        = some (Action.setViewportSize ⟨800, 1016⟩)
    ∧ (callback sample (sampleSession "r6" "png" 0 true) true samplePage).dims = (800, 1000)
    ∧ (callback sample (sampleSession "r6" "png" 0 true) true samplePage).dims.2
        ≠ (sample.contentsSize samplePage).height :=
  ⟨rfl, rfl, rfl, rfl, by decide⟩

/-- C6 amended: with `full = true` the viewport is resized to the contents size the
    engine reports, the view to the contents size it then reports, and the bitmap is
    allocated with the requested width and with the integer value of
    `document.body.offsetHeight` evaluated after these two resizes, whatever the
    requested height. -/
theorem C6_full_capture_height_from_script {τ : Types} (c : Collab τ) (s : Session)
    (ok : Bool) (v : τ.View) (hfull : s.full = true) :
    (callback c s ok v).dims = (s.width, scriptedHeight c v)
    ∧ (callback c s ok v).actions.filter Action.isAlloc
        = [Action.newQImage3 s.width (scriptedHeight c v) .Format_RGB888]
    ∧ (fullStep c s.full s.height v).actions
        = [Action.setViewportSize (c.contentsSize v),
           Action.resize (c.contentsSize (c.setViewportSize v (c.contentsSize v))),
           Action.evaluateJavaScript "document.body.offsetHeight"]
    ∧ (∀ h : Int, (callback c { s with height := h } ok v).dims = (callback c s ok v).dims) := by
  refine ⟨?_, ?_, ?_, ?_⟩
  · simp [callback, hfull, fullStep, scriptedHeight]
  · rw [callback_filter_alloc]
    simp [hfull, fullStep, scriptedHeight]
  · simp [hfull, fullStep]
  · intro h
    simp [callback, hfull, fullStep]

/-- C6 amended, at a concrete input: the sample page, requested height 600. -/
theorem C6_full_capture_height_from_script_witness :
    (sampleSession "r6" "png" 0 true).full = true
    ∧ (callback sample (sampleSession "r6" "png" 0 true) true samplePage).dims
        = ((sampleSession "r6" "png" 0 true).width, scriptedHeight sample samplePage) :=
  ⟨rfl, (C6_full_capture_height_from_script sample (sampleSession "r6" "png" 0 true) true
      samplePage rfl).1⟩

/-- C2: when `Unmarshal` returns an error for a raw request, the slot of the `load`
    signal returns without calling `LoadPage`: the process (store, pending views,
    clock, trace) is unchanged, so whatever is dispatched afterwards the process is
    the one it would have been without that request, its store included. -/
theorem C2_decode_failure_drops_request {τ : Types} (c : Collab τ) (data : String) (w : World τ)
    (herr : (c.unmarshal c.newParams data).2 ≠ none) :
    loadHandler c data w = w
    ∧ step c w (.load data) = w
    ∧ (∀ es : List (Event τ), Exec c w (.load data :: es) = Exec c w es)
    ∧ (∀ es : List (Event τ), (Exec c w (.load data :: es)).loaded = (Exec c w es).loaded) := by
  have h1 : loadHandler c data w = w := by
    cases hr : (c.unmarshal c.newParams data).2 with
    | none => exact absurd hr herr
    | some e => simp only [loadHandler, hr]
  have h2 : step c w (.load data) = w := h1
  have h3 : ∀ es : List (Event τ), Exec c w (.load data :: es) = Exec c w es := by
    intro es
    show Exec c (step c w (.load data)) es = Exec c w es
    rw [h2]
  exact ⟨h1, h2, h3, fun es => by rw [h3 es]⟩

/-- C2 at a concrete input: a request without the separator on the sample decoder. -/
theorem C2_decode_failure_drops_request_witness :
    (sample.unmarshal sample.newParams "garbage").2 ≠ none
    ∧ (step sample idle (.load "garbage")).loaded = [("old", "00")]
    ∧ (step sample idle (.load "garbage")).sessions = [] :=
  ⟨by decide,
   congrArg World.loaded (C2_decode_failure_drops_request sample "garbage" idle (by decide)).2.1,
   congrArg World.sessions (C2_decode_failure_drops_request sample "garbage" idle (by decide)).2.1⟩

/-! ## The clock of the loop -/

theorem timeSleep_le (d : Int) (t : Nat) : t ≤ timeSleep d t := by
  unfold timeSleep
  split
  · exact le_refl t
  · exact Nat.le_add_right t _

theorem After.refl {τ : Types} (w : World τ) : After w w :=
  ⟨[], by simp, by simp, le_refl _⟩

theorem After.trans {τ : Types} {w1 w2 w3 : World τ} (h12 : After w1 w2) (h23 : After w2 w3) :
    After w1 w3 := by
  obtain ⟨l1, ht1, hl1, hc1⟩ := h12
  obtain ⟨l2, ht2, hl2, hc2⟩ := h23
  refine ⟨l1 ++ l2, ?_, ?_, le_trans hc1 hc2⟩
  · rw [ht2, ht1, List.append_assoc]
  · intro e he
    rcases List.mem_append.mp he with h | h
    · exact hl1 e h
    · exact le_trans hc1 (hl2 e h)

theorem perform_trace {τ : Types} (w : World τ) (a : Action τ) :
    (perform w a).trace = w.trace ++ [⟨w.clock, a⟩] := by
  cases a <;> rfl

theorem perform_clock_sleep {τ : Types} (w : World τ) (d : Int) :
    (perform w (.sleep d)).clock = timeSleep d w.clock := rfl

theorem perform_clock_of_not_sleep {τ : Types} (w : World τ) (a : Action τ)
    (h : a.isSleep = false) : (perform w a).clock = w.clock := by
  cases a <;> first | rfl | simp [Action.isSleep] at h

theorem perform_after {τ : Types} (w : World τ) (a : Action τ) : After w (perform w a) := by
  refine ⟨[⟨w.clock, a⟩], perform_trace w a, ?_, ?_⟩
  · intro e he
    rw [List.mem_singleton.mp he]
  · cases a
    case sleep d => exact timeSleep_le d w.clock
    all_goals exact le_refl _

theorem performAll_after {τ : Types} (as : List (Action τ)) (w : World τ) :
    After w (performAll w as) := by
  induction as generalizing w with
  | nil => exact After.refl w
  | cons a as ih => exact After.trans (perform_after w a) (ih (perform w a))

theorem performAll_of_no_sleep {τ : Types} (as : List (Action τ)) (w : World τ)
    (h : ∀ a ∈ as, a.isSleep = false) :
    (performAll w as).clock = w.clock
    ∧ (performAll w as).trace = w.trace ++ as.map fun a => ⟨w.clock, a⟩ := by
  induction as generalizing w with
  | nil => exact ⟨rfl, by simp [performAll]⟩
  | cons a as ih =>
    have ha := perform_clock_of_not_sleep w a (h a (List.mem_cons_self a as))
    have := ih (perform w a) (fun b hb => h b (List.mem_cons_of_mem a hb))
    show (performAll (perform w a) as).clock = w.clock ∧ (performAll (perform w a) as).trace = _
    rw [this.1, this.2, ha, perform_trace]
    simp

theorem LoadPage_after {τ : Types} (c : Collab τ) (url id format : String)
    (quality delay width height : Int) (zoom : τ.Float64) (full : Bool) (w : World τ) :
    After w (LoadPage c url id format quality delay width height zoom full w) := by
  have h := performAll_after (setupActions c url width zoom) w
  unfold After at h ⊢
  simp only [LoadPage]
  exact h

theorem step_after {τ : Types} (c : Collab τ) (w : World τ) (e : Event τ) :
    After w (step c w e) := by
  cases e with
  | load data =>
    show After w (loadHandler c data w)
    unfold loadHandler
    simp only []
    split
    · exact LoadPage_after ..
    · exact After.refl w
  | pageLoadFinished n ok v =>
    simp only [step]
    split
    · exact After.refl w
    · rename_i s _
      have h := performAll_after (callback c s ok v).actions w
      unfold After at h ⊢
      exact h

theorem Exec_after {τ : Types} (c : Collab τ) (es : List (Event τ)) (w : World τ) :
    After w (Exec c w es) := by
  induction es generalizing w with
  | nil => exact After.refl w
  | cons e es ih => exact After.trans (step_after c w e) (ih (step c w e))

theorem callback_actions_of_delay {τ : Types} (c : Collab τ) (s : Session) (ok : Bool)
    (v : τ.View) (hd : 0 < s.delay) :
    ∃ rest : List (Action τ),
      (callback c s ok v).actions = Action.sleep (sleepDuration s.delay) :: rest
      ∧ ∀ a ∈ rest, a.isSleep = false := by
  refine ⟨(fullStep c s.full s.height v).actions
      ++ captureActions s.width (fullStep c s.full s.height v).height
      ++ serialiseActions s.quality
      ++ (encodeStep c s.format s.quality (c.save2 (captured c s v) "PNG" s.quality)).actions
      ++ finishActions s.id
          (encodeStep c s.format s.quality (c.save2 (captured c s v) "PNG" s.quality)).bytes,
    ?_, ?_⟩
  · simp [callback, captured, delayStep, hd]
  · intro a ha
    simp only [List.mem_append] at ha
    rcases ha with (((ha | ha) | ha) | ha) | ha
    · unfold fullStep at ha
      split at ha
      · simp at ha
        rcases ha with h | h | h <;> rw [h] <;> rfl
      · simp at ha
    · simp [captureActions] at ha
      rcases ha with h | h | h | h | h | h | h | h | h <;> rw [h] <;> rfl
    · simp [serialiseActions] at ha
      rcases ha with h | h | h | h | h | h <;> rw [h] <;> rfl
    · unfold encodeStep at ha
      split at ha
      · simp [encodeSwitch] at ha
        rcases ha with h | h
        · rw [h]; rfl
        · split_ifs at h <;> simp at h <;> rw [h] <;> rfl
      · simp at ha
        rw [ha]; rfl
    · simp [finishActions] at ha
      rcases ha with h | h | h <;> rw [h] <;> rfl

theorem sleepDuration_of_small (delay : Int) (h0 : 0 < delay) (h1 : delay * 1000000 < 2 ^ 63) :
    sleepDuration delay = delay * 1000000 := by
  unfold sleepDuration wrapInt64 millisecond
  have e63 : (2 : Int) ^ 63 = 9223372036854775808 := by norm_num
  have e64 : (2 : Int) ^ 64 = 18446744073709551616 := by norm_num
  rw [e63] at h1
  rw [e63, e64]
  omega

theorem step_fire_of_delay {τ : Types} (c : Collab τ) (w : World τ) (n : Nat) (s : Session)
    (ok : Bool) (v : τ.View) (hn : w.sessions.get? n = some s) (hd : 0 < s.delay) :
    (step c w (.pageLoadFinished n ok v)).clock = timeSleep (sleepDuration s.delay) w.clock
    ∧ ∃ rest : List (Action τ),
        (step c w (.pageLoadFinished n ok v)).trace
          = w.trace ++ ⟨w.clock, Action.sleep (sleepDuration s.delay)⟩
              :: rest.map fun a => ⟨timeSleep (sleepDuration s.delay) w.clock, a⟩ := by
  obtain ⟨rest, hact, hrest⟩ := callback_actions_of_delay c s ok v hd
  have h := performAll_of_no_sleep rest (perform w (Action.sleep (sleepDuration s.delay))) hrest
  rw [perform_clock_sleep, perform_trace] at h
  have hstep : (step c w (.pageLoadFinished n ok v)).clock
        = (performAll (perform w (Action.sleep (sleepDuration s.delay))) rest).clock
      ∧ (step c w (.pageLoadFinished n ok v)).trace
        = (performAll (perform w (Action.sleep (sleepDuration s.delay))) rest).trace := by
    simp only [step, hn, hact]
    exact ⟨rfl, rfl⟩
  refine ⟨by rw [hstep.1, h.1], rest, ?_⟩
  rw [hstep.2, h.2]
  simp

/-- C7 as stated fails: two views are pending, "a" with a delay of 200 ms and "b" with
    none, and both load completions are dispatched from time 0. Until 200 ms the only
    thing the loop starts is the sleep of "a"; "b" is published at 200 ms, not before. -/
theorem C7_counterexample :
    twoPending.sessions.map (fun s => (s.id, s.delay)) = [("a", 200), ("b", 0)]
    ∧ publishTimes (Exec sample twoPending
        [.pageLoadFinished 0 true samplePage, .pageLoadFinished 0 true samplePage])
        = [(200000000, "a"), (200000000, "b")]
    ∧ ((Exec sample twoPending
        [.pageLoadFinished 0 true samplePage, .pageLoadFinished 0 true samplePage]).trace.filter
          fun e => e.time < 200000000).map (fun e => (e.time, e.act.isSleep)) = [(0, true)] := by
  decide

/-- C7 amended: when `delay > 0` the callback sleeps on the thread of the loop. The
    dispatch of that load completion logs the sleep at the current clock, returns only
    when the clock has advanced by the sleep duration (`delay` milliseconds when the
    product does not overflow), with all its other actions logged at that later time;
    and whatever is dispatched afterwards, another session's load completion
    included, starts no earlier than that. -/
theorem C7_delay_blocks_the_loop {τ : Types} (c : Collab τ) (w : World τ) (n : Nat)
    (s : Session) (ok : Bool) (v : τ.View) (es : List (Event τ))
    (hn : w.sessions.get? n = some s) (hd : 0 < s.delay) :
    (step c w (.pageLoadFinished n ok v)).clock = timeSleep (sleepDuration s.delay) w.clock
    ∧ (s.delay * 1000000 < 2 ^ 63 →
        (step c w (.pageLoadFinished n ok v)).clock = w.clock + (s.delay * 1000000).toNat)
    ∧ (∃ rest : List (Action τ),
        (step c w (.pageLoadFinished n ok v)).trace
          = w.trace ++ ⟨w.clock, Action.sleep (sleepDuration s.delay)⟩
              :: rest.map fun a => ⟨timeSleep (sleepDuration s.delay) w.clock, a⟩)
    ∧ After (step c w (.pageLoadFinished n ok v))
        (Exec c (step c w (.pageLoadFinished n ok v)) es) := by
  have h := step_fire_of_delay c w n s ok v hn hd
  refine ⟨h.1, ?_, h.2, Exec_after c es _⟩
  intro hsmall
  rw [h.1, sleepDuration_of_small s.delay hd hsmall]
  unfold timeSleep
  have hpos : ¬ (s.delay * 1000000 ≤ 0) := by omega
  rw [if_neg hpos]

/-- C7 amended, at a concrete input: the view "a" of the two pending ones. -/
theorem C7_delay_blocks_the_loop_witness :
    twoPending.sessions.get? 0 = some (sampleSession "a" "png" 200 false)
    ∧ 0 < (sampleSession "a" "png" 200 false).delay
    ∧ (step sample twoPending (.pageLoadFinished 0 true samplePage)).clock = 200000000 :=
  ⟨by decide, by decide,
   (C7_delay_blocks_the_loop sample twoPending 0 (sampleSession "a" "png" 200 false) true
      samplePage [] (by decide) (by decide)).1⟩

end Url2img
